import Mathlib

/-!
A verification development for the WBuy proxy service (`main.py`).

The heuristic field-resolution helpers of the service are embedded
shallowly: Python JSON values become the inductive type `Json` below
(floats are idealized as exact rationals; the service only feeds short
decimal money strings through them), Python dicts become association
lists looked up first-match, and the fallible attribute access
`x.get(k)` (an `AttributeError` when `x` is a truthy non-dict) becomes
`Except Unit`.  Each embedded function keeps the name of the Python
function it translates.
-/

/-- A Python/JSON value as handled by `main.py`.  `null` stands both for
JSON `null` and for Python `None` (they are the same object in the
program); `float` carries an exact rational, the idealization of the
IEEE double Python uses (the money strings exercised here are exact in
both readings). -/
inductive Json where
  | null : Json
  | bool : Bool → Json
  | int : Int → Json
  | float : ℚ → Json
  | str : String → Json
  | obj : List (String × Json) → Json
  | arr : List Json → Json

/-- Python truthiness (`bool(v)`) of a JSON value. -/
def truthy : Json → Bool
  | .null => false
  | .bool b => b
  | .int n => n != 0
  | .float q => q != 0
  | .str s => s != ""
  | .obj fields => !fields.isEmpty
  | .arr items => !items.isEmpty

/-- Python `d.get(k)` on a dict `d`: the first binding of `k`, or Python `None`
(`Json.null`) when the key is absent. -/
def pyGetD (fields : List (String × Json)) (k : String) : Json :=
  (fields.lookup k).getD Json.null

/-- Python `x or d`: `x` when truthy, else `d`. -/
def pyOr (x d : Json) : Json :=
  if truthy x then x else d

/-- Attribute access `x.get(k)` on an arbitrary value: succeeds exactly when `x` is a
dict, and raises `AttributeError` (modelled as `Except.error ()`)
otherwise. -/
def pyGetAttr : Json → String → Except Unit Json
  | .obj fields, k => .ok (pyGetD fields k)
  | _, _ => .error ()

mutual

/-- Python `repr` of the fields of a dict (used only through `pyStr` on
container values, which no extraction theorem exercises). -/
def pyReprFields : List (String × Json) → List String
  | [] => []
  | (k, v) :: rest => ("\x27" ++ k ++ "\x27: " ++ pyRepr v) :: pyReprFields rest

/-- Python `repr` of the items of a list. -/
def pyReprItems : List Json → List String
  | [] => []
  | v :: rest => pyRepr v :: pyReprItems rest

/-- Python `repr` of a value (abbreviated for floats, which Python
renders in decimal notation; no theorem depends on this rendering). -/
def pyRepr : Json → String
  | .null => "None"
  | .bool b => if b then "True" else "False"
  | .int n => toString n
  | .float q => toString q
  | .str s => "\x27" ++ s ++ "\x27"
  | .obj fields => "\x7b" ++ ", ".intercalate (pyReprFields fields) ++ "\x7d"
  | .arr items => "[" ++ ", ".intercalate (pyReprItems items) ++ "]"

end

/-- Python `str(v)`.  Scalar cases are faithful (`str` is the identity
on strings, `True`/`False`/`None` spellings, decimal integers); the
float and container cases delegate to the abbreviated `pyRepr` model
above (Python renders floats in decimal notation, not as a fraction) —
no theorem below depends on those renderings. -/
def pyStr : Json → String
  | .null => "None"
  | .bool b => if b then "True" else "False"
  | .int n => toString n
  | .float q => toString q
  | .str s => s
  | .obj fields => "\x7b" ++ ", ".intercalate (pyReprFields fields) ++ "\x7d"
  | .arr items => "[" ++ ", ".intercalate (pyReprItems items) ++ "]"

/-- Python `str.strip()` (and the whitespace tolerance of `float()`):
drop whitespace from both ends of a character list. -/
def stripWS (cs : List Char) : List Char :=
  ((cs.dropWhile Char.isWhitespace).reverse.dropWhile Char.isWhitespace).reverse

/-- Model of `s.replace(".", "")`: the pattern is a single character, so the
replacement is exactly a filter. -/
def removeDots (cs : List Char) : List Char :=
  cs.filter (fun c => c != '.')

/-- Model of `s.replace(",", ".")`: single-character pattern and replacement,
hence a map. -/
def commaToDot (cs : List Char) : List Char :=
  cs.map (fun c => if c = ',' then '.' else c)

/-- Value of a (most-significant-first) digit string. -/
def digitsToNat (ds : List Char) : Nat :=
  ds.foldl (fun a c => 10 * a + (c.toNat - 48)) 0

/-- Longest digit prefix and the remaining characters. -/
def takeDigits : List Char → List Char × List Char
  | [] => ([], [])
  | c :: cs =>
    if c.isDigit then
      let p := takeDigits cs
      (c :: p.1, p.2)
    else ([], c :: cs)

/-- Optional leading sign of a numeric literal: the sign as `1` or
`-1`, and the remaining characters. -/
def splitSign (cs : List Char) : Int × List Char :=
  match cs with
  | [] => (1, [])
  | c :: rest =>
    if c = '+' then (1, rest)
    else if c = '-' then ((-1 : Int), rest)
    else (1, c :: rest)

/-- Unsigned mantissa of a Python float literal: `digits [. digits]` or
`. digits`.  The result `(m, e, rest)` denotes the exact decimal value
`m / 10 ^ e` (integer digits concatenated with the fractional digits,
scaled by the number of fractional digits) plus the unconsumed rest. -/
def parseUnsigned (cs : List Char) : Option (Nat × Nat × List Char) :=
  let p := takeDigits cs
  match p.2 with
  | '.' :: rest =>
    let f := takeDigits rest
    if p.1.isEmpty && f.1.isEmpty then none
    else some (digitsToNat p.1 * 10 ^ f.1.length + digitsToNat f.1, f.1.length, f.2)
  | r => if p.1.isEmpty then none else some (digitsToNat p.1, 0, r)

/-- Signed digit string of an exponent part. -/
def parseExpDigits (cs : List Char) : Option (Int × List Char) :=
  match cs with
  | '+' :: r =>
    let p := takeDigits r
    if p.1.isEmpty then none else some ((digitsToNat p.1 : Int), p.2)
  | '-' :: r =>
    let p := takeDigits r
    if p.1.isEmpty then none else some (-(digitsToNat p.1 : Int), p.2)
  | r =>
    let p := takeDigits r
    if p.1.isEmpty then none else some ((digitsToNat p.1 : Int), p.2)

/-- Fold an exponent part into a scaled decimal: `(m, e)` denoting
`m / 10 ^ e` times `10 ^ p`. -/
def applyExp (m : Int) (e : Nat) (p : Int) : Int × Nat :=
  if 0 ≤ p then (m * 10 ^ p.toNat, e) else (m, e + (-p).toNat)

/-- Python `float(s)` on finite decimal literals, kept exact: optional
surrounding whitespace, optional sign, mantissa, optional `e`/`E`
exponent.  The result `(m, e)` denotes the exact value `m / 10 ^ e` (an
IEEE double rounds this value; the plain digit/comma money strings the
positive theorems below quantify over are exact in both readings).
Known deviations from Python's `float()`, all on the string branch
where every exception is caught: `inf`/`nan` spellings are treated as
parse failures (in `_num_centavos` both roads end in `0`, since Python
gets a non-finite value there and `int(round(...))` raises inside the
same `try`); digit-group underscores (`"1_0"`), non-ASCII decimal
digits, and the `\x0b`/`\x0c`/`\x1c`-`\x1f` whitespace forms Python
also strips are not modelled; and a parsed magnitude beyond the double
range saturates to `inf` in Python (again `0` through the caught
`round`) but stays exact here.  The `faithfulChar` hypothesis of the
totality theorem below excludes exactly these classes. -/
def pyFloat (s0 : List Char) : Option (Int × Nat) :=
  let cs := stripWS s0
  let sc := splitSign cs
  match parseUnsigned sc.2 with
  | none => none
  | some m =>
    match m.2.2 with
    | [] => some (sc.1 * m.1, m.2.1)
    | 'e' :: r =>
      (match parseExpDigits r with
       | some e => if e.2.isEmpty then some (applyExp (sc.1 * m.1) m.2.1 e.1) else none
       | none => none)
    | 'E' :: r =>
      (match parseExpDigits r with
       | some e => if e.2.isEmpty then some (applyExp (sc.1 * m.1) m.2.1 e.1) else none
       | none => none)
    | _ => none

/-- Python `round(a / b)` with no digits argument, for `0 < b`: nearest
integer, ties to even (banker's rounding), computed exactly from the
flooring quotient and remainder. -/
def roundHalfEven (a b : Int) : Int :=
  let f := a.fdiv b
  let r := a - f * b
  if 2 * r < b then f
  else if b < 2 * r then f + 1
  else if f % 2 = 0 then f else f + 1

/-- The string branch of `_num_centavos`: strip, empty check, strip all
dots, turn commas into dots, `float(...) * 100`, rounded; any parse
failure yields `0`.  The parsed value being `m / 10 ^ e`, the Python
expression `int(round(float(s) * 100))` is `round((m * 100) / 10 ^ e)`
with ties to even. -/
def numStr (s : String) : Int :=
  let cs := stripWS s.data
  if cs.isEmpty then 0
  else
    match pyFloat (commaToDot (removeDots cs)) with
    | some me => roundHalfEven (me.1 * 100) ((10 : Int) ^ me.2)
    | none => 0

/-- Function `_num_centavos(v)` from `main.py`: money normalization to integer
cents.  `None` is `0`; a `bool` is an `int` in Python, hence
`int(round(b))`; ints pass through; floats below `1000` are scaled by
`100`, larger ones only rounded (`round(q)` is `roundHalfEven` of
`q.num / q.den`); anything else goes through `str(v).strip()` and the
separator-normalizing string branch.  For a dict or list, `str(v)` is a
repr starting with a brace or bracket, which `float` can never parse,
so those cases are `0` directly.

This function is total because `Json.float` carries only finite
rationals.  The Python numeric branch (lines 40-43) lies OUTSIDE the
function's `try/except` (which wraps only the string parse), so it
raises uncaught on the doubles this type cannot carry — `nan`, `±inf` —
and on finite floats below `1000` whose product with `100` overflows
the double range; `numFloatBranch` below refines exactly that branch
over genuine doubles and carries the error path. -/
def _num_centavos : Json → Int
  | .null => 0
  | .bool b => if b then 1 else 0
  | .int n => n
  | .float q => if q < 1000 then roundHalfEven (q.num * 100) q.den else roundHalfEven q.num q.den
  | .str s => numStr s
  | .obj _ => 0
  | .arr _ => 0


/-- A Python float as a genuine IEEE double: a finite value (kept exact,
as everywhere in this development) or one of the non-finite values,
which are reachable in the program — Python's `resp.json()` accepts
`Infinity`, `-Infinity` and `NaN` literals, and huge JSON numbers parse
to `±inf`. -/
inductive PyFloat where
  | finite : ℚ → PyFloat
  | inf : PyFloat
  | negInf : PyFloat
  | nan : PyFloat

/-- Largest finite double, `(2 - 2 ^ -52) * 2 ^ 1023 = 2 ^ 1024 - 2 ^ 971`
(an integer). -/
def maxDouble : Int :=
  ((2 ^ 1024 - 2 ^ 971 : Nat) : Int)

/-- Whether `q * 100` computed in double arithmetic overflows to `±inf`:
the exact magnitude `|q| * 100` exceeds `maxDouble`, stated on the
rational's integer parts so it kernel-evaluates.  (IEEE rounding moves
the exact cutoff by half an ulp; no theorem quantifies over inputs
between the two.) -/
def scaleOverflows (q : ℚ) : Bool :=
  maxDouble * (q.den : Int) < 100 * (q.num.natAbs : Int)

/-- The float branch of `_num_centavos` over genuine doubles, which in
Python sits OUTSIDE the `try/except`: `round(nan)` raises `ValueError`;
`inf < 1000` is false so `int(round(inf))` raises `OverflowError`;
`-inf < 1000` is true and `-inf * 100 = -inf` raises in `round`; and a
finite `v < 1000` whose `v * 100` overflows to `-inf` (such as
`-1e308`) raises the same way.  All other finite doubles agree with the
total `_num_centavos` on `Json.float`. -/
def numFloatBranch : PyFloat → Except Unit Int
  | .nan => .error ()
  | .inf => .error ()
  | .negInf => .error ()
  | .finite q =>
    if q < 1000 then
      if scaleOverflows q then .error ()
      else .ok (roundHalfEven (q.num * 100) (q.den : Int))
    else .ok (roundHalfEven q.num (q.den : Int))

/-- Characters on which the string pipeline model is exact with respect
to Python: ASCII, not a digit-group underscore (Python parses `"1_0"`
as `10.0`), and not one of the whitespace forms (`\x0b`, `\x0c`,
`\x1c`-`\x1f`) that Python's `strip()` removes but the model's
`stripWS` does not.  On strings of such characters, the model's parse
failures are exactly the strings on which the program returns `0` from
its string branch. -/
def faithfulChar (c : Char) : Bool :=
  decide (c.toNat < 128) && c != '_' && c.toNat != 11 && c.toNat != 12 &&
    c.toNat != 28 && c.toNat != 29 && c.toNat != 30 && c.toNat != 31

/-- The candidate list built at the top of `_extract_shipping_total`.
Python evaluates all seven candidate expressions when constructing the
list, in order; the three nested probes `(rec.get(k) or {}).get(sub)`
raise `AttributeError` when `rec[k]` is a truthy non-dict, which aborts
the whole call. -/
def shippingCands (rec : List (String × Json)) : Except Unit (List Json) := do
  let e ← pyGetAttr (pyOr (pyGetD rec "frete") (Json.obj [])) "valor"
  let f ← pyGetAttr (pyOr (pyGetD rec "totals") (Json.obj [])) "shipping"
  let g ← pyGetAttr (pyOr (pyGetD rec "order") (Json.obj [])) "shipping_total"
  pure [pyGetD rec "shipping_total", pyGetD rec "valor_frete",
        pyGetD rec "frete_total", pyGetD rec "total_frete", e, f, g]

/-- The loop of `_extract_shipping_total`: return `_num_centavos` of the
first candidate whose parse is strictly positive, else `0`. -/
def firstPositive : List Json → Int
  | [] => 0
  | c :: rest => if 0 < _num_centavos c then _num_centavos c else firstPositive rest

/-- Function `_extract_shipping_total(order_json)` from `main.py`. -/
def _extract_shipping_total (rec : List (String × Json)) : Except Unit Int :=
  (shippingCands rec).map firstPositive

/-- The candidate list of `_extract_tracking_from_detail`, in source
order: `frete.rastreio`, top-level `rastreamento`, `shipping.tracking`,
`order.tracking`. -/
def trackingCands (rec : List (String × Json)) : Except Unit (List Json) := do
  let a ← pyGetAttr (pyOr (pyGetD rec "frete") (Json.obj [])) "rastreio"
  let c ← pyGetAttr (pyOr (pyGetD rec "shipping") (Json.obj [])) "tracking"
  let d ← pyGetAttr (pyOr (pyGetD rec "order") (Json.obj [])) "tracking"
  pure [a, pyGetD rec "rastreamento", c, d]

/-- Python `str(c).strip().upper()` (Lean's `Char.toUpper` is ASCII-only, as
are the tracking codes handled here). -/
def pyStripUpper (s : String) : String :=
  String.mk ((stripWS s.data).map Char.toUpper)

/-- The loop of `_extract_tracking_from_detail`: the first truthy
candidate, stringified, stripped and upper-cased; `""` if none. -/
def firstTruthy : List Json → String
  | [] => ""
  | c :: rest => if truthy c then pyStripUpper (pyStr c) else firstTruthy rest

/-- Function `_extract_tracking_from_detail(order_json)` from `main.py`. -/
def _extract_tracking_from_detail (rec : List (String × Json)) : Except Unit String :=
  (trackingCands rec).map firstTruthy

/-- Function `_unwrap_first(obj)` from `main.py`: first "order" object of any
common shape.  `None` gives `{}`; a dict with a `"data"` key unwraps a
list (first element, or `{}` when empty) or a nested dict, and is
returned as-is otherwise; a list gives its first element or `{}`; any
other value gives `{}`.  Total — no branch can raise. -/
def _unwrap_first : Json → Json
  | .null => .obj []
  | .obj fields =>
    if (fields.lookup "data").isSome then
      match fields.lookup "data" with
      | some (.arr items) => items.headD (.obj [])
      | some (.obj d) => .obj d
      | _ => .obj fields
    else .obj fields
  | .arr items => items.headD (.obj [])
  | _ => .obj []

/-- Modelled from the spec: `StockRow`, the normalized stock entity of
§3 — `build_grid` and its row type are part of this repository's
catalog-grid variants but absent from `src/`, so they are taken from
the spec's words. -/
structure StockRow where
  sku : String
  product_name : String
  size : String
  color : String
  quantity : Int
  active : Bool
  sellable : Bool

/-- Modelled from the spec: one `(product, color)` cell of the Grid of
§3 — size totals in insertion order, the `desgradiado` completeness
flag, and the `faltando` list of missing expected sizes. -/
structure ColorCell where
  tamanhos : List (String × Int)
  desgradiado : Bool
  faltando : List String

/-- Add `q` to the entry of `k` in an insertion-ordered tally, creating
the entry at the end when absent (sum, not overwrite). -/
def bumpTally (m : List (String × Int)) (k : String) (q : Int) : List (String × Int) :=
  match m with
  | [] => [(k, q)]
  | (k0, q0) :: rest =>
    if k0 = k then (k0, q0 + q) :: rest else (k0, q0) :: bumpTally rest k q

/-- Add `q` under color `c`, size `sz` in a per-product tally. -/
def bumpColor (m : List (String × List (String × Int))) (c sz : String) (q : Int) :
    List (String × List (String × Int)) :=
  match m with
  | [] => [(c, [(sz, q)])]
  | (c0, t0) :: rest =>
    if c0 = c then (c0, bumpTally t0 sz q) :: rest else (c0, t0) :: bumpColor rest c sz q

/-- Add `q` under product `p`, color `c`, size `sz` in the whole grid
tally. -/
def bumpGrid (g : List (String × List (String × List (String × Int)))) (p c sz : String)
    (q : Int) : List (String × List (String × List (String × Int))) :=
  match g with
  | [] => [(p, [(c, [(sz, q)])])]
  | (p0, m0) :: rest =>
    if p0 = p then (p0, bumpColor m0 c sz q) :: rest else (p0, m0) :: bumpGrid rest p c sz q

/-- Modelled from the spec: completeness pass of `build_grid` §4.2 —
`faltando` is the subset of `expected_sizes` whose total is `≤ 0`, in
the order given; `desgradiado` is true iff `expected_sizes` is
non-empty and some expected size is missing. -/
def finishCell (expected_sizes : List String) (tam : List (String × Int)) : ColorCell :=
  let faltando := expected_sizes.filter (fun sz => ((tam.lookup sz).getD 0) ≤ 0)
  { tamanhos := tam
    desgradiado := !expected_sizes.isEmpty && !faltando.isEmpty
    faltando := faltando }

/-- Modelled from the spec: `build_grid(rows, expected_sizes,
min_quantity)` §4.2, absent from `src/`.  Folds every row into
`grid[product].cores[color].tamanhos[size] += row.quantity` (duplicates
are summed, not overwritten), then computes per-(product, color)
completeness.  `min_quantity` is advisory only, applied by the caller
before this call, so it is unused here.  Product and color order is
first-seen insertion order. -/
def build_grid (rows : List StockRow) (expected_sizes : List String) (min_quantity : Int) :
    List (String × List (String × ColorCell)) :=
  let tally := rows.foldl (fun g r => bumpGrid g r.product_name r.color r.size r.quantity) []
  let _ := min_quantity
  tally.map (fun pm => (pm.1, pm.2.map (fun cm => (cm.1, finishCell expected_sizes cm.2))))

/-- Total quantity recorded in a grid for product `p`, color `c`,
size `sz`, when present. -/
def gridSizeQty (g : List (String × List (String × ColorCell))) (p c sz : String) :
    Option Int :=
  match g.lookup p with
  | none => none
  | some cm =>
    match cm.lookup c with
    | none => none
    | some cell => cell.tamanhos.lookup sz

/-- Concrete record with two positive shipping candidates: the second
candidate (`valor_frete`) is the first positive one. -/
def twoCandRec : List (String × Json) :=
  [("valor_frete", Json.str "5,00"), ("frete_total", Json.str "7,00")]

/-- Concrete record whose candidate shipping fields hold only negative
amounts. -/
def negShipRec : List (String × Json) :=
  [("valor_frete", Json.str "-5,00"), ("shipping_total", Json.int (-3))]

/-- Concrete record holding `frete.valor = "10,00"` only below the top
level (under the unrelated key `"x"`), where no named candidate can see
it. -/
def nestedFreteRec : List (String × Json) :=
  [("x", Json.obj [("frete", Json.obj [("valor", Json.str "10,00")])])]

/-- Concrete record with a top-level `rastreio` key, which is not among
the tracking candidates. -/
def rastreioRec : List (String × Json) :=
  [("rastreio", Json.str " am123456789br ")]

/-- Concrete record with the tracking code under `frete.rastreio`, the
first tracking candidate. -/
def freteTrackRec : List (String × Json) :=
  [("frete", Json.obj [("rastreio", Json.str " am123456789br ")])]

/-- Two duplicate stock rows for product `A`, color `Azul`, size `M`,
with quantities `3` and `2`. -/
def dupRows : List StockRow :=
  [{ sku := "S1", product_name := "A", size := "M", color := "Azul",
     quantity := 3, active := true, sellable := true },
   { sku := "S2", product_name := "A", size := "M", color := "Azul",
     quantity := 2, active := true, sellable := true }]


theorem dropWhile_eq_self_of_none (p : Char → Bool) (cs : List Char)
    (h : ∀ c ∈ cs, p c = false) : cs.dropWhile p = cs := by
  cases cs with
  | nil => rfl
  | cons a l =>
    have ha := h a (List.mem_cons_self a l)
    simp [List.dropWhile_cons, ha]

theorem stripWS_eq_self (cs : List Char) (h : ∀ c ∈ cs, c.isWhitespace = false) :
    stripWS cs = cs := by
  unfold stripWS
  rw [dropWhile_eq_self_of_none _ _ h]
  rw [dropWhile_eq_self_of_none _ _ (fun c hc => h c (List.mem_reverse.mp hc))]
  exact List.reverse_reverse cs

theorem isDigit_ne (c d : Char) (hc : c.isDigit = true) (hd : d.isDigit = false) : c ≠ d := by
  intro he
  rw [he, hd] at hc
  cases hc

theorem digit_not_ws (c : Char) (hc : c.isDigit = true) : c.isWhitespace = false := by
  cases hb : c.isWhitespace with
  | false => rfl
  | true =>
    exfalso
    have hmem := hb
    simp only [Char.isWhitespace, Bool.or_eq_true, decide_eq_true_eq] at hmem
    rcases hmem with ((rfl | rfl) | rfl) | rfl <;> exact absurd hc (by decide)

theorem takeDigits_append (ds rest : List Char) (h : ∀ c ∈ ds, c.isDigit = true) :
    takeDigits (ds ++ rest) = (ds ++ (takeDigits rest).1, (takeDigits rest).2) := by
  induction ds with
  | nil => simp
  | cons a l ih =>
    have ha := h a (List.mem_cons_self a l)
    have ih2 := ih (fun c hc => h c (List.mem_cons_of_mem a hc))
    simp [takeDigits, ha, ih2]

theorem takeDigits_all (ds : List Char) (h : ∀ c ∈ ds, c.isDigit = true) :
    takeDigits ds = (ds, []) := by
  have h2 := takeDigits_append ds [] h
  simpa [takeDigits] using h2

theorem takeDigits_cons_not (c : Char) (rest : List Char) (h : c.isDigit = false) :
    takeDigits (c :: rest) = ([], c :: rest) := by
  simp [takeDigits, h]

theorem commaToDot_cons (c : Char) (l : List Char) :
    commaToDot (c :: l) = (if c = ',' then '.' else c) :: commaToDot l := rfl

theorem commaToDot_append (a b : List Char) :
    commaToDot (a ++ b) = commaToDot a ++ commaToDot b := by
  simp [commaToDot]

theorem commaToDot_digits (ds : List Char) (h : ∀ c ∈ ds, c.isDigit = true) :
    commaToDot ds = ds := by
  induction ds with
  | nil => rfl
  | cons a l ih =>
    have ha := h a (List.mem_cons_self a l)
    have hne : a ≠ ',' := isDigit_ne a ',' ha (by decide)
    rw [commaToDot_cons, if_neg hne, ih (fun c hc => h c (List.mem_cons_of_mem a hc))]

theorem parseUnsigned_digits_dot (ip fp : List Char) (hip : ∀ c ∈ ip, c.isDigit = true)
    (hne : ip ≠ []) (hfp : ∀ c ∈ fp, c.isDigit = true) :
    parseUnsigned (ip ++ '.' :: fp) =
      some (digitsToNat ip * 10 ^ fp.length + digitsToNat fp, fp.length, []) := by
  have hipE : ip.isEmpty = false := by
    cases ip with
    | nil => exact absurd rfl hne
    | cons a l => rfl
  unfold parseUnsigned
  rw [takeDigits_append ip ('.' :: fp) hip, takeDigits_cons_not '.' fp (by decide)]
  simp [takeDigits_all fp hfp, hipE]

theorem parseUnsigned_digits (ds : List Char) (hne : ds ≠ [])
    (hds : ∀ c ∈ ds, c.isDigit = true) :
    parseUnsigned ds = some (digitsToNat ds, 0, []) := by
  have hdsE : ds.isEmpty = false := by
    cases ds with
    | nil => exact absurd rfl hne
    | cons a l => rfl
  unfold parseUnsigned
  rw [takeDigits_all ds hds]
  simp [hdsE]

theorem pyFloat_digits_dot (ip fp : List Char) (hip : ∀ c ∈ ip, c.isDigit = true)
    (hne : ip ≠ []) (hfp : ∀ c ∈ fp, c.isDigit = true) :
    pyFloat (ip ++ '.' :: fp) =
      some (((digitsToNat ip * 10 ^ fp.length + digitsToNat fp : ℕ) : Int), fp.length) := by
  have hw : ∀ c ∈ ip ++ '.' :: fp, c.isWhitespace = false := by
    intro c hc
    rcases List.mem_append.mp hc with h1 | h2
    · exact digit_not_ws c (hip c h1)
    · rcases List.mem_cons.mp h2 with rfl | h3
      · rfl
      · exact digit_not_ws c (hfp c h3)
  unfold pyFloat
  rw [stripWS_eq_self _ hw]
  cases ip with
  | nil => exact absurd rfl hne
  | cons d ds =>
    have hd := hip d (List.mem_cons_self d ds)
    have h1 : d ≠ '+' := isDigit_ne d '+' hd (by decide)
    have h2 : d ≠ '-' := isDigit_ne d '-' hd (by decide)
    rw [List.cons_append]
    simp only [splitSign, if_neg h1, if_neg h2]
    rw [← List.cons_append]
    rw [parseUnsigned_digits_dot (d :: ds) fp hip (by simp) hfp]
    simp

theorem pyFloat_digits (ds : List Char) (hne : ds ≠ [])
    (hds : ∀ c ∈ ds, c.isDigit = true) :
    pyFloat ds = some (((digitsToNat ds : ℕ) : Int), 0) := by
  have hw : ∀ c ∈ ds, c.isWhitespace = false := fun c hc => digit_not_ws c (hds c hc)
  unfold pyFloat
  rw [stripWS_eq_self _ hw]
  cases ds with
  | nil => exact absurd rfl hne
  | cons d l =>
    have hd := hds d (List.mem_cons_self d l)
    have h1 : d ≠ '+' := isDigit_ne d '+' hd (by decide)
    have h2 : d ≠ '-' := isDigit_ne d '-' hd (by decide)
    simp only [splitSign, if_neg h1, if_neg h2]
    rw [parseUnsigned_digits (d :: l) (by simp) hds]
    simp

theorem roundHalfEven_one (a : Int) : roundHalfEven a 1 = a := by
  unfold roundHalfEven
  rw [Int.fdiv_one]
  norm_num

theorem roundHalfEven_mul_cancel (k b : Int) (hb : 0 < b) :
    roundHalfEven (k * b) b = k := by
  have hfd : (k * b).fdiv b = k := Int.mul_fdiv_cancel k (ne_of_gt hb)
  unfold roundHalfEven
  rw [hfd]
  norm_num [hb]

theorem firstPositive_nonneg (cs : List Json) : 0 ≤ firstPositive cs := by
  induction cs with
  | nil => exact le_refl 0
  | cons c rest ih =>
    by_cases h : 0 < _num_centavos c
    · simp [firstPositive, h]
      omega
    · simp [firstPositive, h]
      exact ih

theorem firstPositive_eq_zero (cs : List Json) (h : ∀ c ∈ cs, _num_centavos c ≤ 0) :
    firstPositive cs = 0 := by
  induction cs with
  | nil => rfl
  | cons c rest ih =>
    have hc := h c (List.mem_cons_self c rest)
    have hnot : ¬0 < _num_centavos c := not_lt.mpr hc
    simp [firstPositive, hnot]
    exact ih (fun x hx => h x (List.mem_cons_of_mem c hx))

theorem firstPositive_first (pre : List Json) (c : Json) (post : List Json)
    (hpre : ∀ x ∈ pre, _num_centavos x ≤ 0) (hc : 0 < _num_centavos c) :
    firstPositive (pre ++ c :: post) = _num_centavos c := by
  induction pre with
  | nil => simp [firstPositive, hc]
  | cons x xs ih =>
    have hx := hpre x (List.mem_cons_self x xs)
    have hnot : ¬0 < _num_centavos x := not_lt.mpr hx
    simp [firstPositive, hnot]
    exact ih (fun y hy => hpre y (List.mem_cons_of_mem x hy))

theorem firstTruthy_eq_empty (cs : List Json) (h : ∀ x ∈ cs, truthy x = false) :
    firstTruthy cs = "" := by
  induction cs with
  | nil => rfl
  | cons c rest ih =>
    have hc := h c (List.mem_cons_self c rest)
    simp [firstTruthy, hc]
    exact ih (fun x hx => h x (List.mem_cons_of_mem c hx))

theorem firstTruthy_first (pre : List Json) (s : String) (post : List Json)
    (hpre : ∀ x ∈ pre, truthy x = false) (hs : s ≠ "") :
    firstTruthy (pre ++ Json.str s :: post) = pyStripUpper s := by
  induction pre with
  | nil =>
    have ht : truthy (Json.str s) = true := by simp [truthy, hs]
    simp [firstTruthy, ht, pyStr]
  | cons x xs ih =>
    have hx := hpre x (List.mem_cons_self x xs)
    simp [firstTruthy, hx]
    exact ih (fun y hy => hpre y (List.mem_cons_of_mem x hy))

/-- C2: for every numeric string in Brazilian convention — digits with
optional `.` thousands separators, then `,` and two fraction digits —
`_num_centavos` strips the dots, reads the comma as the decimal point,
and yields `100 * intpart + fraction` minor units. -/
theorem brazilian_comma_decimal (cs ip : List Char) (f1 f2 : Char)
    (hw : ∀ c ∈ cs, c.isWhitespace = false)
    (hsplit : removeDots cs = ip ++ ',' :: [f1, f2])
    (hne : ip ≠ [])
    (hip : ∀ c ∈ ip, c.isDigit = true)
    (hf1 : f1.isDigit = true) (hf2 : f2.isDigit = true) :
    _num_centavos (Json.str (String.mk cs)) =
      100 * (digitsToNat ip : Int) + (digitsToNat [f1, f2] : Int) := by
  have hcs : cs ≠ [] := by
    intro h
    rw [h] at hsplit
    simp [removeDots] at hsplit
  have hcsE : cs.isEmpty = false := by
    cases cs with
    | nil => exact absurd rfl hcs
    | cons a l => rfl
  have hrepl : commaToDot (removeDots cs) = ip ++ '.' :: [f1, f2] := by
    rw [hsplit, commaToDot_append, commaToDot_digits ip hip, commaToDot_cons, if_pos rfl,
      commaToDot_cons, if_neg (isDigit_ne f1 ',' hf1 (by decide)),
      commaToDot_cons, if_neg (isDigit_ne f2 ',' hf2 (by decide))]
    rfl
  have hfp : ∀ c ∈ [f1, f2], c.isDigit = true := by
    intro c hc
    rcases List.mem_cons.mp hc with rfl | hc2
    · exact hf1
    · rcases List.mem_cons.mp hc2 with rfl | hc3
      · exact hf2
      · cases hc3
  have hlen : ([f1, f2] : List Char).length = 2 := rfl
  show numStr (String.mk cs) = _
  unfold numStr
  simp only [show (String.mk cs).data = cs from rfl, stripWS_eq_self cs hw, hcsE,
    Bool.false_eq_true, if_false, hrepl, pyFloat_digits_dot ip [f1, f2] hip hne hfp, hlen]
  rw [show ((10 : Int) ^ (2 : Nat)) = 100 from by norm_num]
  rw [roundHalfEven_mul_cancel _ 100 (by norm_num)]
  push_cast
  ring

/-- C1 (amended): in the string branch every `.` is stripped as a
thousands separator before parsing, so a dot-decimal string of digits
parses to `100 ×` the value of its concatenated digits. -/
theorem dot_stripped_as_thousands (cs ds : List Char)
    (hw : ∀ c ∈ cs, c.isWhitespace = false)
    (hsplit : removeDots cs = ds)
    (hne : ds ≠ [])
    (hds : ∀ c ∈ ds, c.isDigit = true) :
    _num_centavos (Json.str (String.mk cs)) = 100 * (digitsToNat ds : Int) := by
  have hcs : cs ≠ [] := by
    intro h
    rw [h] at hsplit
    exact hne hsplit.symm
  have hcsE : cs.isEmpty = false := by
    cases cs with
    | nil => exact absurd rfl hcs
    | cons a l => rfl
  have hrepl : commaToDot (removeDots cs) = ds := by
    rw [hsplit, commaToDot_digits ds hds]
  show numStr (String.mk cs) = _
  unfold numStr
  simp only [show (String.mk cs).data = cs from rfl, stripWS_eq_self cs hw, hcsE,
    Bool.false_eq_true, if_false, hrepl, pyFloat_digits ds hne hds]
  rw [show ((10 : Int) ^ (0 : Nat)) = 1 from by norm_num]
  rw [roundHalfEven_one]
  ring

/-- C1 (corrected): `_num_centavos` does NOT treat a right-most `.` as
the decimal point — every `.` is stripped as a thousands separator —
so parsing `"21.74"` yields `217400`, not the `2174` the claim
states. -/
theorem num_centavos_dot_decimal_cex : _num_centavos (Json.str "21.74") ≠ 2174 := by
  decide

/-- C1 witness: `dot_stripped_as_thousands` applied to `"21.74"`. -/
theorem dot_stripped_as_thousands_witness :
    _num_centavos (Json.str "21.74") = 217400 := by
  have h := dot_stripped_as_thousands "21.74".data ['2', '1', '7', '4']
    (by decide) (by decide) (by decide) (by decide)
  exact h.trans (by decide)

/-- C2 witness: `brazilian_comma_decimal` applied to `"1.234,56"`
(yields `123456`) and `"21,74"` (yields `2174`). -/
theorem brazilian_comma_decimal_witness :
    _num_centavos (Json.str "1.234,56") = 123456 ∧
      _num_centavos (Json.str "21,74") = 2174 := by
  constructor
  · have h := brazilian_comma_decimal "1.234,56".data ['1', '2', '3', '4'] '5' '6'
      (by decide) (by decide) (by decide) (by decide) (by decide) (by decide)
    exact h.trans (by decide)
  · have h := brazilian_comma_decimal "21,74".data ['2', '1'] '7' '4'
      (by decide) (by decide) (by decide) (by decide) (by decide) (by decide)
    exact h.trans (by decide)

/-- C3 (corrected): `_extract_shipping_total` has no recursive fallback
scan — on a record whose only `frete.valor` sits below the top level it
returns `0`, not `1000`. -/
theorem shipping_nested_frete_cex :
    _extract_shipping_total nestedFreteRec ≠ Except.ok 1000 := by
  intro h
  have h0 : _extract_shipping_total nestedFreteRec = Except.ok 0 := rfl
  rw [h0] at h
  exact absurd (Except.ok.inj h) (by decide)

/-- C3 (amended): there is no fallback scan at all — when the seven
named candidates all parse non-positive, `_extract_shipping_total`
returns `0`, whatever else (such as a nested `frete.valor`) the record
contains. -/
theorem shipping_no_fallback_scan (rec : List (String × Json)) (cs : List Json)
    (hc : shippingCands rec = Except.ok cs)
    (hall : ∀ x ∈ cs, _num_centavos x ≤ 0) :
    _extract_shipping_total rec = Except.ok 0 := by
  unfold _extract_shipping_total
  rw [hc]
  simp [Except.map, firstPositive_eq_zero cs hall]

/-- C3 witness: `shipping_no_fallback_scan` on the record holding
`frete.valor = "10,00"` below the top level: all seven candidates are
`None`, and the result is `0`. -/
theorem shipping_no_fallback_scan_witness :
    _extract_shipping_total nestedFreteRec = Except.ok 0 :=
  shipping_no_fallback_scan nestedFreteRec
    [Json.null, Json.null, Json.null, Json.null, Json.null, Json.null, Json.null]
    rfl (by decide)

/-- C4: `_extract_shipping_total` returns the parsed value of the first
candidate whose parse is strictly positive, ignoring every later
candidate. -/
theorem shipping_first_positive_wins (rec : List (String × Json))
    (cs pre post : List Json) (c : Json)
    (hc : shippingCands rec = Except.ok cs)
    (hsplit : cs = pre ++ c :: post)
    (hpre : ∀ x ∈ pre, _num_centavos x ≤ 0)
    (hpos : 0 < _num_centavos c) :
    _extract_shipping_total rec = Except.ok (_num_centavos c) := by
  unfold _extract_shipping_total
  rw [hc, hsplit]
  simp [Except.map, firstPositive_first pre c post hpre hpos]

/-- C4 witness: on a record where both `valor_frete` (`"5,00"`) and
`frete_total` (`"7,00"`) are positive, the first wins: `500`. -/
theorem shipping_first_positive_wins_witness :
    _extract_shipping_total twoCandRec = Except.ok 500 := by
  have h := shipping_first_positive_wins twoCandRec
    [Json.null, Json.str "5,00", Json.str "7,00", Json.null, Json.null, Json.null, Json.null]
    [Json.null] [Json.str "7,00", Json.null, Json.null, Json.null, Json.null]
    (Json.str "5,00") rfl rfl (by decide) (by decide)
  exact h.trans (congrArg Except.ok (by decide))

/-- C6: whenever `_extract_shipping_total` returns a value (negative
candidate amounts included), that value is non-negative: the loop only
accepts strictly positive parses and falls back to `0`. -/
theorem shipping_total_nonneg (rec : List (String × Json)) (n : Int)
    (h : _extract_shipping_total rec = Except.ok n) : 0 ≤ n := by
  unfold _extract_shipping_total at h
  cases hcand : shippingCands rec with
  | error e => rw [hcand] at h; simp [Except.map] at h
  | ok cs =>
    rw [hcand] at h
    simp [Except.map] at h
    rw [← h]
    exact firstPositive_nonneg cs

/-- C6 witness: `shipping_total_nonneg` on the record with a negative
shipping string and a negative shipping int, which resolves to `0`. -/
theorem shipping_total_nonneg_witness :
    _extract_shipping_total negShipRec = Except.ok 0 ∧ (0 : Int) ≤ 0 :=
  ⟨rfl, shipping_total_nonneg negShipRec 0 rfl⟩

/-- C7 (corrected): money resolution is NOT total — the numeric branch
of `_num_centavos` lies outside its `try/except`, so the float inputs
`inf` and `nan` raise `OverflowError`/`ValueError` in `int(round(v))`,
and the finite float `-1e308` (below `1000`, so scaled) overflows to
`-inf` in `v * 100` and raises in `round`, all uncaught. -/
theorem num_centavos_raises_on_floats_cex :
    numFloatBranch PyFloat.inf = Except.error () ∧
      numFloatBranch PyFloat.nan = Except.error () ∧
      numFloatBranch (PyFloat.finite ((-((10 ^ 308 : Nat) : Int) : Int) : ℚ)) =
        Except.error () := by
  refine ⟨rfl, rfl, ?_⟩
  have hq : ((-((10 ^ 308 : Nat) : Int) : Int) : ℚ) < 1000 := by
    rw [show ((1000 : ℚ)) = ((1000 : Int) : ℚ) from by norm_num]
    rw [Int.cast_lt]
    push_cast
    norm_num
  have hov : scaleOverflows ((-((10 ^ 308 : Nat) : Int) : Int) : ℚ) = true := by
    simp only [scaleOverflows, maxDouble, Rat.num_intCast, Rat.den_intCast,
      decide_eq_true_eq, Int.natAbs_neg, Int.natAbs_ofNat]
    push_cast
    norm_num
  simp only [numFloatBranch]
  rw [if_pos hq, hov]
  simp

/-- C7 (amended): resolution never raises outside the float numeric
branch — `None` and the empty string yield `0`, and every
`faithfulChar` string whose normalized form the float grammar rejects
yields `0`, because the whole string branch sits inside the
`try/except` (the `faithfulChar` hypothesis scopes the statement to
strings where the model's parse-failure class coincides with the
program's return-0 class; the Lean proof does not consume it).  On
floats the parser is total exactly on the finite doubles without
scaling overflow, where it returns the integer of the total embedding;
`nan`, `±inf`, and sub-`1000` finite floats whose `* 100` overflows
raise instead. -/
theorem num_centavos_raise_boundary :
    _num_centavos Json.null = 0 ∧
      _num_centavos (Json.str "") = 0 ∧
      (∀ s : String, (∀ c ∈ s.data, faithfulChar c = true) →
        pyFloat (commaToDot (removeDots (stripWS s.data))) = none →
        _num_centavos (Json.str s) = 0) ∧
      (∀ q : ℚ, (q < 1000 → scaleOverflows q = false) →
        numFloatBranch (PyFloat.finite q) = Except.ok (_num_centavos (Json.float q))) ∧
      (∀ q : ℚ, q < 1000 → scaleOverflows q = true →
        numFloatBranch (PyFloat.finite q) = Except.error ()) := by
  refine ⟨rfl, rfl, ?_, ?_, ?_⟩
  · intro s hfaithful h
    show numStr s = 0
    unfold numStr
    by_cases he : (stripWS s.data).isEmpty
    · simp [he]
    · simp [he, h]
  · intro q hno
    by_cases hq : q < 1000
    · simp [numFloatBranch, _num_centavos, hq, hno hq]
    · simp [numFloatBranch, _num_centavos, hq]
  · intro q hq hov
    simp [numFloatBranch, hq, hov]

/-- C7 witness: `num_centavos_raise_boundary` at the unparseable
faithful string `"abc"` (yields `0`) and the finite float `21.0`
(no overflow, yields `2100`). -/
theorem num_centavos_raise_boundary_witness :
    _num_centavos (Json.str "abc") = 0 ∧
      numFloatBranch (PyFloat.finite 21) = Except.ok 2100 := by
  constructor
  · exact num_centavos_raise_boundary.2.2.1 "abc" (by decide) rfl
  · have hov21 : scaleOverflows (21 : ℚ) = false := by
      simp only [scaleOverflows, maxDouble, Rat.num_ofNat, Rat.den_ofNat,
        decide_eq_false_iff_not, not_lt, Int.natAbs_ofNat]
      push_cast
      norm_num
    have h := num_centavos_raise_boundary.2.2.2.1 21 (fun _ => hov21)
    exact h.trans (congrArg Except.ok (by decide))

/-- C5 (corrected): a top-level `"rastreio"` key is not among the
candidates of `_extract_tracking_from_detail` (those are
`frete.rastreio`, `rastreamento`, `shipping.tracking`,
`order.tracking`), so the claim's example record resolves to `""`, not
`"AM123456789BR"`. -/
theorem tracking_top_level_rastreio_cex :
    _extract_tracking_from_detail rastreioRec ≠ Except.ok "AM123456789BR" := by
  intro h
  have h0 : _extract_tracking_from_detail rastreioRec = Except.ok "" := rfl
  rw [h0] at h
  exact absurd (Except.ok.inj h) (by decide)

/-- C5 (amended): `_extract_tracking_from_detail` returns the first
truthy candidate among `frete.rastreio`, `rastreamento`,
`shipping.tracking`, `order.tracking`, stringified, trimmed and
upper-cased, and `""` when none is truthy; the record
`{frete: {rastreio: " am123456789br "}}` resolves to
`"AM123456789BR"` (see the witness). -/
theorem tracking_first_truthy (rec : List (String × Json))
    (cs pre post : List Json) (s : String)
    (hc : trackingCands rec = Except.ok cs) :
    ((∀ x ∈ cs, truthy x = false) → _extract_tracking_from_detail rec = Except.ok "")
    ∧ (cs = pre ++ Json.str s :: post → (∀ x ∈ pre, truthy x = false) → s ≠ "" →
        _extract_tracking_from_detail rec = Except.ok (pyStripUpper s)) := by
  constructor
  · intro hall
    unfold _extract_tracking_from_detail
    rw [hc]
    simp [Except.map, firstTruthy_eq_empty cs hall]
  · intro hsplit hpre hs
    unfold _extract_tracking_from_detail
    rw [hc, hsplit]
    simp [Except.map, firstTruthy_first pre s post hpre hs]

/-- C5 witness: `tracking_first_truthy` on the record holding the
tracking code under `frete.rastreio`, whose first candidate is the
padded lower-case string; the result is trimmed and upper-cased. -/
theorem tracking_first_truthy_witness :
    _extract_tracking_from_detail freteTrackRec = Except.ok "AM123456789BR" := by
  have h := (tracking_first_truthy freteTrackRec
      [Json.str " am123456789br ", Json.null, Json.null, Json.null]
      [] [Json.null, Json.null, Json.null] " am123456789br " rfl).2
    rfl (by decide) (by decide)
  exact h.trans (congrArg Except.ok (by decide))

/-- C8: `_unwrap_first` takes the first element of a list record, `{}`
for an empty list, and `{}` for `None` and every scalar shape — it is a
total function, so no input shape can raise. -/
theorem unwrap_first_shapes :
    _unwrap_first Json.null = Json.obj [] ∧
      (∀ x xs, _unwrap_first (Json.arr (x :: xs)) = x) ∧
      _unwrap_first (Json.arr []) = Json.obj [] ∧
      (∀ b, _unwrap_first (Json.bool b) = Json.obj []) ∧
      (∀ n, _unwrap_first (Json.int n) = Json.obj []) ∧
      (∀ q, _unwrap_first (Json.float q) = Json.obj []) ∧
      (∀ s, _unwrap_first (Json.str s) = Json.obj []) :=
  ⟨rfl, fun x xs => rfl, rfl, fun b => rfl, fun n => rfl, fun q => rfl, fun s => rfl⟩

/-- C9: `build_grid` sums duplicate rows — two rows for product `A`,
color `Azul`, size `M` with quantities `3` and `2` yield a tally of `5`
for that size, not `2`. -/
theorem build_grid_sums_duplicates :
    gridSizeQty (build_grid dupRows ["P", "M", "G"] 0) "A" "Azul" "M" = some 5 := by
  decide

/-- C10: the sub-1000 scaling heuristic of `_num_centavos` applies only
to floats: an integer `n` with `0 ≤ n < 1000` passes through unchanged
while the float of equal value is multiplied by `100`. -/
theorem int_unscaled_float_scaled (n : Int) (h0 : 0 ≤ n) (h1 : n < 1000) :
    _num_centavos (Json.int n) = n ∧ _num_centavos (Json.float (n : ℚ)) = 100 * n := by
  constructor
  · rfl
  · have hlt : ((n : ℚ)) < 1000 := by exact_mod_cast h1
    show (if ((n : ℚ)) < 1000 then roundHalfEven ((n : ℚ).num * 100) ((n : ℚ).den : Int)
      else roundHalfEven ((n : ℚ).num) ((n : ℚ).den : Int)) = 100 * n
    rw [if_pos hlt, Rat.num_intCast, Rat.den_intCast]
    rw [show (((1 : ℕ) : Int)) = 1 from rfl, roundHalfEven_one]
    ring

/-- C10 witness: `int_unscaled_float_scaled` at `21`: the integer stays
`21`, the float becomes `2100`. -/
theorem int_unscaled_float_scaled_witness :
    _num_centavos (Json.int 21) = 21 ∧ _num_centavos (Json.float 21) = 2100 := by
  have h := int_unscaled_float_scaled 21 (by decide) (by decide)
  refine ⟨h.1, ?_⟩
  have h2 := h.2
  have hc : (((21 : Int)) : ℚ) = (21 : ℚ) := by norm_num
  rw [hc] at h2
  exact h2.trans (by norm_num)
